import Mathlib

/-!
Verification of the interface-name alias translation engine of this
repository (the `InterfaceAliasConverter` class together with
`print_output_in_alias_mode` and `run_command_in_alias_mode` in
`src/main.py`).

Lines of text are modelled as `List Char`; Python string primitives
(`split`, `lstrip`, `rstrip`, `rjust`, `replace`, `startswith`, `in`,
`re.findall` with a word-bounded literal pattern) are reproduced below with
Python 2 semantics.  Raised exceptions (`IndexError`, `KeyError`,
`click.Abort`) are modelled with `Except`.  The port table, a Python dict
`name -> {... 'alias': ...}` of which only the `'alias'` field is ever read,
is modelled as an association list in iteration order with an optional
alias per record; dict keys are unique, so a first-match lookup coincides
with the source's last-match loop.
-/

/-- Characters of a string literal (lines and commands are `List Char`). -/
def s2l (s : String) : List Char := s.data

/-- The whitespace set of Python 2 `str.split` / `str.strip`:
space, tab, newline, carriage return, vertical tab, form feed. -/
def isPySpace (c : Char) : Bool :=
  c == ' ' || c == '\t' || c == '\n' || c == '\r' || c == '\x0b' || c == '\x0c'

/-- A word character of the (ASCII) regex class used by `re.compile(r"\b...\b")`. -/
def isWordChar (c : Char) : Bool := c.isAlphanum || c == '_'

/-- Word-character test lifted to an optional character; positions outside the
string count as non-word, which is how `\b` behaves at the ends. -/
def optIsWord : Option Char → Bool
  | none => false
  | some c => isWordChar c

/-- Accumulator pass of Python `str.split()`: whitespace runs separate tokens
and produce no empty tokens. -/
def pySplitAux : List Char → List Char → List (List Char)
  | acc, [] => if acc = [] then [] else [acc.reverse]
  | acc, c :: rest =>
    if isPySpace c then
      if acc = [] then pySplitAux [] rest else acc.reverse :: pySplitAux [] rest
    else pySplitAux (c :: acc) rest

/-- Python `str.split()` with no separator argument. -/
def pySplit (s : List Char) : List (List Char) := pySplitAux [] s

/-- Python `str.lstrip()` with no argument: drop leading whitespace. -/
def pyLstrip (s : List Char) : List Char := s.dropWhile isPySpace

/-- Python `str.rstrip('\n')`: drop trailing newline characters. -/
def rstripNL (s : List Char) : List Char := (s.reverse.dropWhile (· == '\n')).reverse

/-- Python `str.rjust(n, fill)`: left-pad with `fill` when the string is
shorter than `n`, otherwise return the string unchanged (never truncates). -/
def rjust (fill : Char) (n : Nat) (s : List Char) : List Char :=
  if s.length < n then List.replicate (n - s.length) fill ++ s else s

/-- One step of Python `str.replace(pat, rep, 1)` for a nonempty pattern:
scan left to right, replace the first occurrence, keep the rest. -/
def replaceFirstAux (pat rep : List Char) : List Char → List Char
  | [] => []
  | c :: rest =>
    if pat.isPrefixOf (c :: rest) then rep ++ List.drop pat.length (c :: rest)
    else c :: replaceFirstAux pat rep rest

/-- Python `str.replace(pat, rep, 1)`; an empty pattern inserts at the front. -/
def replaceFirst (pat rep s : List Char) : List Char :=
  if pat = [] then rep ++ s else replaceFirstAux pat rep s

/-- Fuelled scan of Python `str.replace(pat, rep)` (all occurrences,
left to right, non-overlapping); fuel bounds the number of scan steps and
is initialised to the string length, which always suffices for a nonempty
pattern since each step consumes at least one character. -/
def replaceAllFuel (pat rep : List Char) : Nat → List Char → List Char
  | 0, s => s
  | _ + 1, [] => []
  | fuel + 1, c :: rest =>
    if pat.isPrefixOf (c :: rest) then
      rep ++ replaceAllFuel pat rep fuel (List.drop (pat.length - 1) rest)
    else c :: replaceAllFuel pat rep fuel rest

/-- Python `str.replace(pat, rep)` with unlimited count.  The modelled code
only ever calls this with nonempty literal patterns. -/
def replaceAll (pat rep s : List Char) : List Char :=
  if pat = [] then s else replaceAllFuel pat rep s.length s

/-- Python substring test `pat in s`. -/
def containsSub (pat : List Char) : List Char → Bool
  | [] => pat.isEmpty
  | c :: rest => pat.isPrefixOf (c :: rest) || containsSub pat rest

/-- Fuelled scan counting the matches `re.findall(r"\b{pat}\b", s)` finds for
a nonempty literal pattern `pat`: a match needs `pat` at the current position
with a word/non-word transition on both sides (`prev` is the character just
before the current position, `none` at the start of the string); after a
match the scan resumes past it (non-overlapping), otherwise it advances one
character.  Fuel is initialised to the string length, which always suffices. -/
def wbCountFuel (pat : List Char) : Nat → Option Char → List Char → Nat
  | 0, _, _ => 0
  | _ + 1, _, [] => 0
  | fuel + 1, prev, c :: rest =>
    if pat.isPrefixOf (c :: rest)
        && (optIsWord prev != optIsWord pat.head?)
        && (optIsWord pat.getLast? != optIsWord (List.drop pat.length (c :: rest)).head?)
    then 1 + wbCountFuel pat fuel pat.getLast? (List.drop (pat.length - 1) rest)
    else wbCountFuel pat fuel (some c) rest

/-- Number of word-bounded occurrences of the literal `pat` in `s`, i.e. the
length of `re.findall(re.compile(r"\b{}\b".format(pat)), s)` for the
(nonempty, metacharacter-free) port names the code interpolates. -/
def wbCount (pat s : List Char) : Nat :=
  if pat = [] then 0 else wbCountFuel pat s.length none s

/-- Exceptions the translation engine can raise: a Python `IndexError`
(list subscript out of range), a Python `KeyError` (missing `'alias'` dict
field), and `click.Abort` — the latter is how the code realises both the
spec's `NotFound` diagnostic (after echoing "Invalid interface ...") and its
`RegistryEmpty` fatal precondition (after echoing "port_dict is None!"). -/
inductive PyErr
  | indexError
  | keyError
  | abort
deriving DecidableEq

instance {ε α : Type} [DecidableEq ε] [DecidableEq α] : DecidableEq (Except ε α) :=
  fun x y =>
    match x, y with
    | .ok a, .ok b =>
      if h : a = b then .isTrue (by rw [h]) else .isFalse (by simp [h])
    | .ok _, .error _ => .isFalse (by simp)
    | .error _, .ok _ => .isFalse (by simp)
    | .error e, .error f =>
      if h : e = f then .isTrue (by rw [h]) else .isFalse (by simp [h])

/-- The port table `config_db.get_table('PORT')` as seen by the engine: one
record per canonical interface name, in dict iteration order, carrying the
optional `'alias'` field (absent alias = `none`; any other fields of the
record are never read by the modelled code). -/
abbrev PortDict : Type := List (List Char × Option (List Char))

/-- Alias lookup over the port table: first record whose name equals `n`
(`some (record's optional alias)`), or `none` when no record matches.  The
source scans all `natsorted` keys and keeps the last match
(`print_output_in_alias_mode`, lines 229-231); with unique dict keys that is
the same record. -/
def portAlias : PortDict → List Char → Option (Option (List Char))
  | [], _ => none
  | (p, a) :: rest, n => if p = n then some a else portAlias rest n

/-- `InterfaceAliasConverter.name_to_alias` (src/main.py lines 73-83): scan
the port names; on the first match return the record's `'alias'` field,
which raises `KeyError` when the field is absent; if no name matches, echo
"Invalid interface" and raise `click.Abort` (the spec's `NotFound`). -/
def name_to_alias : PortDict → List Char → Except PyErr (List Char)
  | [], _ => .error .abort
  | (p, a) :: rest, n =>
    if p = n then
      match a with
      | some al => .ok al
      | none => .error .keyError
    else name_to_alias rest n

/-- `InterfaceAliasConverter.alias_to_name` (src/main.py lines 85-95): scan
the records in order, reading each record's `'alias'` field (raising
`KeyError` when it is absent) and returning the first name whose alias
equals the argument; if none matches, echo "Invalid interface" and raise
`click.Abort` (the spec's `NotFound`). -/
def alias_to_name : PortDict → List Char → Except PyErr (List Char)
  | [], _ => .error .abort
  | (p, a) :: rest, al =>
    match a with
    | none => .error .keyError
    | some b => if al = b then .ok p else alias_to_name rest al

/-- The `alias_max_length` loop of `InterfaceAliasConverter.__init__`
(src/main.py lines 64-71): fold the alias lengths of the records in
iteration order, but — faithfully to `except KeyError: break` — STOP at the
first record whose `'alias'` field is absent. -/
def aliasMaxLoop : Nat → PortDict → Nat
  | acc, [] => acc
  | acc, (_, some a) :: rest =>
    aliasMaxLoop (if acc < a.length then a.length else acc) rest
  | acc, (_, none) :: _ => acc

/-- Modelled from the spec ("`maxAliasWidth: integer` = max length over all
known aliases (0 if none have aliases)"), for comparison with the source's
`aliasMaxLoop`: the maximum alias length over ALL records that carry an
alias, regardless of iteration order or alias-less records in between. -/
def maxAliasWidthSpec (pd : PortDict) : Nat :=
  ((pd.filterMap Prod.snd).map List.length).foldr max 0

/-- The state `InterfaceAliasConverter.__init__` leaves behind on success. -/
structure InterfaceAliasConverter where
  port_dict : PortDict
  alias_max_length : Nat
deriving DecidableEq

/-- `InterfaceAliasConverter.__init__` (src/main.py lines 53-71) given the
port table the backing store returned: an empty table echoes
"port_dict is None!" and raises `click.Abort` (the spec's `RegistryEmpty`);
otherwise the converter is built with the `aliasMaxLoop` width. -/
def InterfaceAliasConverter.init (pd : PortDict) : Except PyErr InterfaceAliasConverter :=
  if pd = [] then .error .abort else .ok ⟨pd, aliasMaxLoop 0 pd⟩

/-- The alias padding of `print_output_in_alias_mode` (src/main.py lines
232-235): right-justify the alias to the registry width only when it is
strictly shorter. -/
def padAlias (maxLen : Nat) (a : List Char) : List Char :=
  if a.length < maxLen then rjust ' ' maxLen a else a

/-- `print_output_in_alias_mode` (src/main.py lines 207-238) for one line
`out0` (already adjusted by the caller) and the caller's token index:
1. a line starting with "---" has the token at `index` dash-right-justified
   to the registry width and the tokens re-joined with double spaces
   (`word[index]` raises `IndexError` past the end);
2. the (possibly re-joined) line is whitespace-split, the token at `index`
   is taken when the split is nonempty (else the looked-up name stays "")
   and stripped of every colon;
3. the token is looked up among the port names; a hit reads the record's
   `'alias'` field (`KeyError` when absent); a nonempty alias is padded with
   `padAlias` and substituted for the first occurrence of the token;
4. the result is echoed with trailing newlines stripped. -/
def print_output_in_alias_mode (pd : PortDict) (maxLen : Nat) (out0 : List Char)
    (index : Nat) : Except PyErr (List Char) :=
  let step1 : Except PyErr (List Char) :=
    if (s2l "---").isPrefixOf out0 then
      match (pySplit out0).get? index with
      | none => .error .indexError
      | some dword =>
        .ok (List.intercalate (s2l "  ") ((pySplit out0).set index (rjust '-' maxLen dword)))
    else .ok out0
  match step1 with
  | .error e => .error e
  | .ok output =>
    let word := pySplit output
    let tokRes : Except PyErr (List Char) :=
      if word.isEmpty then .ok []
      else
        match word.get? index with
        | none => .error .indexError
        | some w => .ok (w.filter (fun c => !(c == ':')))
    match tokRes with
    | .error e => .error e
    | .ok interface_name =>
      match portAlias pd interface_name with
      | none => .ok (rstripNL output)
      | some none => .error .keyError
      | some (some al) =>
        if al.isEmpty then .ok (rstripNL output)
        else .ok (rstripNL (replaceFirst interface_name (padAlias maxLen al) output))

/-- One iteration of the fallback loop of `run_command_in_alias_mode`
(src/main.py lines 336-345) for the port named `port`: when the word-bounded
regex finds matches in the current line and the line does not start with
"    PortID:", every occurrence of the concatenation of the matches is
replaced by `name_to_alias` of that concatenation (whose `click.Abort` or
`KeyError` propagates). -/
def fallbackStep (pd : PortDict) (raw : List Char) (port : List Char) :
    Except PyErr (List Char) :=
  let cnt := wbCount port raw
  if cnt = 0 then .ok raw
  else if (s2l "    PortID:").isPrefixOf raw then .ok raw
  else
    match name_to_alias pd (List.flatten (List.replicate cnt port)) with
    | .error e => .error e
    | .ok al => .ok (replaceAll (List.flatten (List.replicate cnt port)) al raw)

/-- The whole fallback branch of `run_command_in_alias_mode` (src/main.py
lines 334-346) before the final echo: iterate `fallbackStep` over every
port record in table order, threading the line through. -/
def fallbackLine (pd : PortDict) (raw : List Char) : Except PyErr (List Char) :=
  pd.foldlM (fun acc pr => fallbackStep pd acc pr.1) raw

/-- The header re-padding pattern shared by several command branches of
`run_command_in_alias_mode`: when the line starts with the header word,
every occurrence of it is replaced by its right-justified form. -/
def hdrPad (hdr : List Char) (maxLen : Nat) (out : List Char) : List Char :=
  if hdr.isPrefixOf out then replaceAll hdr (rjust ' ' maxLen hdr) out else out

/-- The `pfcstat` header adjustment (src/main.py lines 277-283). -/
def pfcAdjust (maxLen : Nat) (out : List Char) : List Char :=
  if (s2l "Port Tx").isPrefixOf out then
    replaceAll (s2l "Port Tx") (rjust ' ' maxLen (s2l "Port Tx")) out
  else if (s2l "Port Rx").isPrefixOf out then
    replaceAll (s2l "Port Rx") (rjust ' ' maxLen (s2l "Port Rx")) out
  else out

/-- Echo of a single converted line: `print_output_in_alias_mode` already
strips trailing newlines, so a success becomes a one-line emission. -/
def emit1 : Except PyErr (List Char) → Except PyErr (List (List Char))
  | .error e => .error e
  | .ok s => .ok [s]

/-- True when `cmd` reaches the final `else` of `run_command_in_alias_mode`
(the whole-line-scan fallback): it matches none of the command signatures of
the specific branches (src/main.py lines 258-332). -/
def isFallbackCmd (cmd : List Char) : Bool :=
  !((s2l "portstat").isPrefixOf cmd) && !((s2l "intfstat").isPrefixOf cmd)
    && !(cmd == s2l "pfcstat")
    && !((s2l "sudo sfputil show eeprom").isPrefixOf cmd)
    && !((s2l "sudo sfputil show").isPrefixOf cmd)
    && !(cmd == s2l "sudo lldpshow")
    && !((s2l "queuestat").isPrefixOf cmd)
    && !(cmd == s2l "fdbshow")
    && !((s2l "nbrshow").isPrefixOf cmd)

/-- One iteration of the read loop of `run_command_in_alias_mode`
(src/main.py lines 248-346) for the command `cmd` and one line `line` as
`readline` returned it (trailing newline included; the empty string only
occurs at end of stream, where the loop body is skipped): the emitted lines
(as a list, to state "exactly one line out per line in") or the uncaught
exception.  The command dispatch selects the token index and the per-command
line adjustment; every specific branch works on the `lstrip`-ped line except
the eeprom branch, which passes the raw line; the final `else` branch is the
whole-line scan over `raw_output` (its `if index:` guard is always true
since `index` stays 1 there). -/
def processLine (pd : PortDict) (maxLen : Nat) (cmd line : List Char) :
    Except PyErr (List (List Char)) :=
  if line = [] then .ok []
  else
    let out0 := pyLstrip line
    if (s2l "portstat").isPrefixOf cmd then
      emit1 (print_output_in_alias_mode pd maxLen (hdrPad (s2l "IFACE") maxLen out0) 0)
    else if (s2l "intfstat").isPrefixOf cmd then
      emit1 (print_output_in_alias_mode pd maxLen (hdrPad (s2l "IFACE") maxLen out0) 0)
    else if cmd = s2l "pfcstat" then
      emit1 (print_output_in_alias_mode pd maxLen (pfcAdjust maxLen out0) 0)
    else if (s2l "sudo sfputil show eeprom").isPrefixOf cmd then
      emit1 (print_output_in_alias_mode pd maxLen line 0)
    else if (s2l "sudo sfputil show").isPrefixOf cmd then
      emit1 (print_output_in_alias_mode pd maxLen (hdrPad (s2l "Port") maxLen out0) 0)
    else if cmd = s2l "sudo lldpshow" then
      emit1 (print_output_in_alias_mode pd maxLen (hdrPad (s2l "LocalPort") maxLen out0) 0)
    else if (s2l "queuestat").isPrefixOf cmd then
      emit1 (print_output_in_alias_mode pd maxLen (hdrPad (s2l "Port") maxLen out0) 0)
    else if cmd = s2l "fdbshow" then
      if (s2l "No.").isPrefixOf out0 then
        emit1 (print_output_in_alias_mode pd maxLen
          (replaceAll (s2l "Type") (s2l "      Type") (s2l "  " ++ out0)) 3)
      else
        match out0 with
        | [] => .error .indexError
        | c :: _ =>
          emit1 (print_output_in_alias_mode pd maxLen
            (if c.isDigit then s2l "    " ++ out0 else out0) 3)
    else if (s2l "nbrshow").isPrefixOf cmd then
      emit1 (print_output_in_alias_mode pd maxLen
        (if containsSub (s2l "Vlan") out0 then
          replaceAll (s2l "Vlan") (s2l "  Vlan") out0
        else out0) 2)
    else
      match fallbackLine pd line with
      | .error e => .error e
      | .ok r => .ok [rstripNL r]

/-! ### Helper lemmas about the string primitives -/

lemma isPrefixOf_append_self (t post : List Char) : t.isPrefixOf (t ++ post) = true := by
  induction t with
  | nil => simp [List.isPrefixOf]
  | cons c t ih => simp [List.isPrefixOf, ih]

lemma isPrefixOf_append_ext (p s x : List Char) (h : p.isPrefixOf s = true) :
    p.isPrefixOf (s ++ x) = true := by
  induction p generalizing s with
  | nil => simp [List.isPrefixOf]
  | cons c p ih =>
    cases s with
    | nil => simp [List.isPrefixOf] at h
    | cons d s =>
      simp only [List.isPrefixOf, Bool.and_eq_true] at h
      simp only [List.cons_append, List.isPrefixOf, Bool.and_eq_true]
      exact ⟨h.1, ih s h.2⟩

lemma containsSub_nil (s : List Char) : containsSub [] s = true := by
  cases s <;> simp [containsSub, List.isPrefixOf, List.isEmpty]

lemma containsSub_append_left (p s x : List Char) (h : containsSub p s = true) :
    containsSub p (s ++ x) = true := by
  induction s with
  | nil =>
    simp only [containsSub, List.isEmpty_iff] at h
    subst h
    simpa using containsSub_nil x
  | cons c s ih =>
    simp only [containsSub, Bool.or_eq_true] at h
    rcases h with h | h
    · simp only [List.cons_append, containsSub, Bool.or_eq_true]
      left
      have := isPrefixOf_append_ext p (c :: s) x h
      simpa using this
    · simp only [List.cons_append, containsSub, Bool.or_eq_true]
      right
      exact ih h

lemma replaceFirstAux_at (t rep pre post : List Char) (ht : t ≠ [])
    (h : ∀ i, i < pre.length → t.isPrefixOf (List.drop i (pre ++ (t ++ post))) = false) :
    replaceFirstAux t rep (pre ++ (t ++ post)) = pre ++ (rep ++ post) := by
  induction pre with
  | nil =>
    simp only [List.nil_append]
    cases t with
    | nil => exact absurd rfl ht
    | cons c t2 =>
      rw [List.cons_append, replaceFirstAux]
      rw [show (c :: (t2 ++ post)) = ((c :: t2) ++ post) from rfl,
        isPrefixOf_append_self]
      simp [List.drop_left]
  | cons c pre ih =>
    have h0 := h 0 (by simp)
    simp only [List.drop_zero, List.cons_append] at h0
    rw [List.cons_append, replaceFirstAux, h0]
    simp only [Bool.false_eq_true, if_false, List.cons_append]
    congr 1
    apply ih
    intro i hi
    have := h (i + 1) (by simpa using Nat.succ_lt_succ hi)
    simpa using this

lemma replaceFirst_at (t rep pre post : List Char) (ht : t ≠ [])
    (h : ∀ i, i < pre.length → t.isPrefixOf (List.drop i (pre ++ (t ++ post))) = false) :
    replaceFirst t rep (pre ++ (t ++ post)) = pre ++ (rep ++ post) := by
  rw [replaceFirst, if_neg ht]
  exact replaceFirstAux_at t rep pre post ht h

lemma padAlias_length (maxLen : Nat) (a : List Char) :
    (padAlias maxLen a).length = max a.length maxLen := by
  by_cases h : a.length < maxLen
  · simp [padAlias, rjust, h]
    omega
  · simp [padAlias, rjust, h]
    omega

lemma padAlias_pad_only (maxLen : Nat) (a : List Char) :
    ∃ q, (∀ c ∈ q, c = ' ') ∧ padAlias maxLen a = q ++ a := by
  by_cases h : a.length < maxLen
  · exact ⟨List.replicate (maxLen - a.length) ' ',
      fun c hc => List.eq_of_mem_replicate hc, by simp [padAlias, rjust, h]⟩
  · exact ⟨[], by simp, by simp [padAlias, rjust, h]⟩

lemma isEmpty_false_of_get (l : List (List Char)) (i : Nat) (w : List Char)
    (h : l.get? i = some w) : l.isEmpty = false := by
  cases l with
  | nil => simp at h
  | cons x xs => rfl

/-! ### Behaviour of the translator on the main substitution path -/

lemma print_output_subst (pd : PortDict) (maxLen index : Nat)
    (line pre t post a w : List Char)
    (h1 : (s2l "---").isPrefixOf line = false)
    (h2 : (pySplit line).get? index = some w)
    (h3 : w.filter (fun c => !(c == ':')) = t)
    (h4 : portAlias pd t = some (some a))
    (h5 : a ≠ [])
    (h8 : t ≠ [])
    (h6 : line = pre ++ (t ++ post))
    (h7 : ∀ i, i < pre.length → t.isPrefixOf (List.drop i (pre ++ (t ++ post))) = false) :
    print_output_in_alias_mode pd maxLen line index
      = .ok (rstripNL (pre ++ (padAlias maxLen a ++ post))) := by
  have hword := isEmpty_false_of_get _ _ _ h2
  have hemp : a.isEmpty = false := by
    cases a with
    | nil => exact absurd rfl h5
    | cons x xs => rfl
  have hrf : replaceFirst t (padAlias maxLen a) line = pre ++ (padAlias maxLen a ++ post) := by
    rw [h6]
    exact replaceFirst_at t (padAlias maxLen a) pre post h8 h7
  simp only [print_output_in_alias_mode, h1, Bool.false_eq_true, if_false,
    hword, h2, h3, h4, hemp, hrf]

lemma foldl_fallbackStep_no_match (pd : PortDict) (l : PortDict) (raw : List Char)
    (h : ∀ pr ∈ l, wbCount pr.1 raw = 0) :
    List.foldlM (fun acc pr => fallbackStep pd acc pr.1) raw l = .ok raw := by
  induction l with
  | nil => rfl
  | cons pr l ih =>
    have hstep : fallbackStep pd raw pr.1 = .ok raw := by
      rw [fallbackStep]
      simp [h pr (by simp)]
    rw [List.foldlM]
    rw [hstep]
    exact ih fun q hq => h q (by simp [hq])

lemma fallbackLine_no_match (pd : PortDict) (raw : List Char)
    (h : ∀ pr ∈ pd, wbCount pr.1 raw = 0) : fallbackLine pd raw = .ok raw :=
  foldl_fallbackStep_no_match pd pd raw h

/-! ### Lookup lemmas for the strict conversion pair -/

lemma name_to_alias_of_mem (pd : PortDict) (x a : List Char)
    (hnd : (pd.map Prod.fst).Nodup) (hmem : (x, some a) ∈ pd) :
    name_to_alias pd x = .ok a := by
  induction pd with
  | nil => simp at hmem
  | cons pr rest ih =>
    obtain ⟨p, oa⟩ := pr
    simp only [List.map_cons, List.nodup_cons] at hnd
    rcases List.mem_cons.mp hmem with hhead | htail
    · obtain ⟨hp, ha⟩ := Prod.mk.injEq .. ▸ hhead
      simp only [name_to_alias]
      simp [hp.symm, ← ha]
    · have hpx : p ≠ x := by
        intro hpx
        exact hnd.1 (hpx ▸ List.mem_map_of_mem Prod.fst htail)
      simp only [name_to_alias]
      simp only [if_neg hpx]
      exact ih hnd.2 htail

lemma alias_to_name_of_mem (pd : PortDict) (x a : List Char)
    (hall : ∀ pr ∈ pd, pr.2 ≠ none)
    (hinj : ∀ pr1 ∈ pd, ∀ pr2 ∈ pd, pr1.2 = pr2.2 → pr1.1 = pr2.1)
    (hmem : (x, some a) ∈ pd) :
    alias_to_name pd a = .ok x := by
  induction pd with
  | nil => simp at hmem
  | cons pr rest ih =>
    obtain ⟨p, oa⟩ := pr
    obtain ⟨b, rfl⟩ : ∃ b, oa = some b := by
      cases oa with
      | none => exact absurd rfl (hall (p, none) (by simp))
      | some b => exact ⟨b, rfl⟩
    simp only [alias_to_name]
    by_cases hab : a = b
    · simp only [if_pos hab]
      have := hinj (p, some b) (by simp) (x, some a) (by simp [hmem]) (by rw [hab])
      simp at this
      simp [this]
    · simp only [if_neg hab]
      have htail : (x, some a) ∈ rest := by
        rcases List.mem_cons.mp hmem with hhead | htail
        · obtain ⟨-, ha⟩ := Prod.mk.injEq .. ▸ hhead
          exact absurd (Option.some.inj ha) hab
        · exact htail
      exact ih (fun q hq => hall q (by simp [hq]))
        (fun q1 hq1 q2 hq2 => hinj q1 (by simp [hq1]) q2 (by simp [hq2])) htail

/-! ### Claim theorems -/

/-- C1: the claim says the alias-mode stream filter emits exactly one output
line per producer line for every command and every line content, never
raising an uncaught exception.  The code violates this: under the `fdbshow`
rule (token index 3) a blank producer line ("\n") is lstripped to the empty
string and `output[0].isdigit()` raises an uncaught `IndexError`, so the
line is dropped and the filter crashes. -/
theorem C1_fdbshow_blank_line_index_error :
    processLine [(s2l "Ethernet0", some (s2l "etp1"))] 4 (s2l "fdbshow") (s2l "\n")
      = .error .indexError := by decide

/-- C4: the claim says the registry's maximum alias width equals the maximum
alias length over ALL known ports even when some ports lack an alias field.
The code's `except KeyError: break` stops the scan at the first alias-less
record instead: with the table iterated as [Ethernet4 (no alias),
Ethernet0 (alias "etp1")], the source loop (`aliasMaxLoop`) yields 0 while
the spec's maximum (`maxAliasWidthSpec`) is 4, and construction succeeds
with the wrong width 0. -/
theorem C4_alias_scan_stops_at_missing_alias :
    aliasMaxLoop 0 [(s2l "Ethernet4", none), (s2l "Ethernet0", some (s2l "etp1"))] = 0 ∧
    maxAliasWidthSpec [(s2l "Ethernet4", none), (s2l "Ethernet0", some (s2l "etp1"))] = 4 ∧
    InterfaceAliasConverter.init [(s2l "Ethernet4", none), (s2l "Ethernet0", some (s2l "etp1"))]
      = .ok ⟨[(s2l "Ethernet4", none), (s2l "Ethernet0", some (s2l "etp1"))], 0⟩ := by decide

/-- C9: registry construction aborts (the `RegistryEmpty`/`click.Abort`
path, after echoing "port_dict is None!") precisely when the backing store
yields zero interfaces, and succeeds — producing the table together with the
scanned alias width — for every non-empty port table. -/
theorem C9_init_empty_iff_abort (pd : PortDict) :
    (InterfaceAliasConverter.init pd = .error .abort ↔ pd = []) ∧
    (InterfaceAliasConverter.init pd = .ok ⟨pd, aliasMaxLoop 0 pd⟩ ↔ pd ≠ []) := by
  rcases pd with _ | ⟨pr, rest⟩ <;> simp [InterfaceAliasConverter.init]

/-- C10: a strict conversion on a name whose record is present but carries
no alias field raises a raw `KeyError` (not the `NotFound` abort), and the
`NotFound` abort is raised only for names with no record at all. -/
theorem C10_keyerror_on_aliasless (pd : PortDict) (n : List Char) :
    (portAlias pd n = some none → name_to_alias pd n = .error .keyError) ∧
    (name_to_alias pd n = .error .abort → ∀ pr ∈ pd, pr.1 ≠ n) := by
  induction pd with
  | nil => simp [portAlias, name_to_alias]
  | cons pr rest ih =>
    obtain ⟨p, oa⟩ := pr
    by_cases hp : p = n
    · subst hp
      cases oa with
      | none => simp [portAlias, name_to_alias]
      | some al => simp [portAlias, name_to_alias]
    · simp only [portAlias, name_to_alias, if_neg hp]
      refine ⟨ih.1, fun h => ?_⟩
      intro q hq
      rcases List.mem_cons.mp hq with rfl | hq2
      · exact hp
      · exact ih.2 h q hq2

/-- Witness for C10 at a concrete registry: `Ethernet0` is present but
alias-less, and the strict conversion raises `KeyError`. -/
theorem C10_keyerror_on_aliasless_witness :
    portAlias [(s2l "Ethernet0", none)] (s2l "Ethernet0") = some none ∧
    name_to_alias [(s2l "Ethernet0", none)] (s2l "Ethernet0") = .error .keyError :=
  ⟨by decide, (C10_keyerror_on_aliasless [(s2l "Ethernet0", none)] (s2l "Ethernet0")).1 (by decide)⟩

/-- C8 counterexample: the claim's "if and only if" fails for
`alias_to_name` when a record lacks the alias field — looking up the unknown
alias "etp9" in a registry whose only record has no alias raises `KeyError`,
not the claimed `NotFound` abort, even though the alias has no entry. -/
theorem C8_counterexample_keyerror_not_notfound :
    (([((s2l "Ethernet4" : List Char), (none : Option (List Char)))].all
        fun pr => pr.2 != some (s2l "etp9")) = true) ∧
    alias_to_name [(s2l "Ethernet4", none)] (s2l "etp9") = .error .keyError ∧
    alias_to_name [(s2l "Ethernet4", none)] (s2l "etp9") ≠ .error .abort := by decide

/-- C8 amended: `name_to_alias` fails with the `NotFound` abort exactly when
the name has no record; `alias_to_name` satisfies the symmetric equivalence
provided every record carries an alias field (otherwise the scan can raise
`KeyError` first, as the counterexample shows). -/
theorem C8_notfound_iff_absent :
    (∀ (pd : PortDict) (n : List Char),
      (name_to_alias pd n = .error .abort ↔ ∀ pr ∈ pd, pr.1 ≠ n)) ∧
    (∀ (pd : PortDict) (al : List Char), (∀ pr ∈ pd, pr.2 ≠ none) →
      (alias_to_name pd al = .error .abort ↔ ∀ pr ∈ pd, pr.2 ≠ some al)) := by
  constructor
  · intro pd n
    induction pd with
    | nil => simp [name_to_alias]
    | cons pr rest ih =>
      obtain ⟨p, oa⟩ := pr
      by_cases hp : p = n
      · subst hp
        cases oa with
        | none => simp [name_to_alias]
        | some al => simp [name_to_alias]
      · simp only [name_to_alias, if_neg hp]
        rw [ih]
        constructor
        · intro h q hq
          rcases List.mem_cons.mp hq with rfl | hq2
          · exact hp
          · exact h q hq2
        · intro h q hq
          exact h q (by simp [hq])
  · intro pd al hall
    induction pd with
    | nil => simp [alias_to_name]
    | cons pr rest ih =>
      obtain ⟨p, oa⟩ := pr
      obtain ⟨b, rfl⟩ : ∃ b, oa = some b := by
        cases oa with
        | none => exact absurd rfl (hall (p, none) (by simp))
        | some b => exact ⟨b, rfl⟩
      simp only [alias_to_name]
      by_cases hab : al = b
      · subst hab
        simp
      · simp only [if_neg hab]
        rw [ih fun q hq => hall q (by simp [hq])]
        constructor
        · intro h q hq
          rcases List.mem_cons.mp hq with rfl | hq2
          · simp
            intro hc
            exact hab hc.symm
          · exact h q hq2
        · intro h q hq
          exact h q (by simp [hq])

/-- Witness for C8 amended at concrete registries: the spec's Example 5
(`Ethernet5` unknown → `NotFound`), and an unknown alias on an all-aliased
registry → `NotFound`. -/
theorem C8_notfound_iff_absent_witness :
    name_to_alias [(s2l "Ethernet0", some (s2l "etp1"))] (s2l "Ethernet5") = .error .abort ∧
    alias_to_name [(s2l "Ethernet0", some (s2l "etp1"))] (s2l "zz") = .error .abort :=
  ⟨(C8_notfound_iff_absent.1 [(s2l "Ethernet0", some (s2l "etp1"))] (s2l "Ethernet5")).mpr
      (by decide),
   (C8_notfound_iff_absent.2 [(s2l "Ethernet0", some (s2l "etp1"))] (s2l "zz")
      (by decide)).mpr (by decide)⟩

/-- C7 counterexample: the round trip fails on a registry containing an
alias-less record that is iterated before the queried port — converting
`Ethernet0` to its alias "etp1" succeeds, but the way back scans `Ethernet4`
first and its missing alias field raises `KeyError`, so the composition does
not return `Ethernet0`. -/
theorem C7_counterexample_aliasless_record :
    (name_to_alias [(s2l "Ethernet4", none), (s2l "Ethernet0", some (s2l "etp1"))]
        (s2l "Ethernet0")).bind
      (alias_to_name [(s2l "Ethernet4", none), (s2l "Ethernet0", some (s2l "etp1"))])
      = .error .keyError ∧
    (Except.error PyErr.keyError : Except PyErr (List Char)) ≠ .ok (s2l "Ethernet0") := by decide

/-- C7 amended: on a registry with unique names in which every record
carries an alias and no two records share an alias, the round trip
`alias_to_name (name_to_alias x)` returns `x` for every recorded name `x`. -/
theorem C7_round_trip (pd : PortDict) (x a : List Char)
    (hnd : (pd.map Prod.fst).Nodup)
    (hall : ∀ pr ∈ pd, pr.2 ≠ none)
    (hinj : ∀ pr1 ∈ pd, ∀ pr2 ∈ pd, pr1.2 = pr2.2 → pr1.1 = pr2.1)
    (hmem : (x, some a) ∈ pd) :
    (name_to_alias pd x).bind (alias_to_name pd) = .ok x := by
  rw [name_to_alias_of_mem pd x a hnd hmem]
  exact alias_to_name_of_mem pd x a hall hinj hmem

/-- Witness for C7 at a concrete well-formed registry. -/
theorem C7_round_trip_witness :
    (name_to_alias [(s2l "Ethernet0", some (s2l "etp1")), (s2l "Ethernet4", some (s2l "etp2"))]
        (s2l "Ethernet4")).bind
      (alias_to_name [(s2l "Ethernet0", some (s2l "etp1")), (s2l "Ethernet4", some (s2l "etp2"))])
      = .ok (s2l "Ethernet4") :=
  C7_round_trip _ (s2l "Ethernet4") (s2l "etp2") (by decide) (by decide) (by decide) (by decide)

/-- C2 counterexample: a line with no canonical name is NOT always emitted
byte-identical — under the `portstat` rule the engine lstrips the line
before translating, so "  hello\n" (registry knows only `Ethernet0`, which
does not occur in the line) is emitted as "hello", losing its leading
whitespace. -/
theorem C2_counterexample_leading_whitespace :
    containsSub (s2l "Ethernet0") (s2l "  hello\n") = false ∧
    processLine [(s2l "Ethernet0", some (s2l "etp1"))] 4 (s2l "portstat") (s2l "  hello\n")
      = .ok [s2l "hello"] ∧
    (s2l "hello" : List Char) ≠ rstripNL (s2l "  hello\n") := by decide

/-- C2 amended: under the whole-line-scan fallback rule, every non-empty
producer line in which no (nonempty-named) known canonical name has a
word-bounded occurrence is emitted byte-identical up to the trailing
newline; the token-index rules do not satisfy this because they lstrip the
line and re-pad divider/header lines even when no canonical name occurs. -/
theorem C2_fallback_no_match_identity (pd : PortDict) (maxLen : Nat) (cmd line : List Char)
    (hcmd : isFallbackCmd cmd = true) (hline : line ≠ [])
    (_hne : ∀ pr ∈ pd, pr.1 ≠ ([] : List Char))
    (hnm : ∀ pr ∈ pd, wbCount pr.1 line = 0) :
    processLine pd maxLen cmd line = .ok [rstripNL line] := by
  simp only [isFallbackCmd, Bool.and_eq_true, Bool.not_eq_true', beq_eq_false_iff_ne] at hcmd
  obtain ⟨⟨⟨⟨⟨⟨⟨⟨g1, g2⟩, g3⟩, g4⟩, g5⟩, g6⟩, g7⟩, g8⟩, g9⟩ := hcmd
  simp only [processLine, if_neg hline, g1, g2, g3, g4, g5, g6, g7, g8, g9,
    Bool.false_eq_true, if_false, fallbackLine_no_match pd line hnm]

/-- Witness for C2 amended: a fallback-rule command on a no-match line with
leading whitespace — emitted byte-identical (only the newline stripped). -/
theorem C2_fallback_no_match_identity_witness :
    processLine [(s2l "Ethernet0", some (s2l "etp1"))] 4 (s2l "foo") (s2l "  hello world\n")
      = .ok [s2l "  hello world"] :=
  (C2_fallback_no_match_identity [(s2l "Ethernet0", some (s2l "etp1"))] 4 (s2l "foo")
      (s2l "  hello world\n") (by decide) (by decide) (by decide) (by decide)).trans
    (by decide)

/-- C3 counterexample: a line with two distinct known canonical names under
the whole-line-scan fallback rule has BOTH substituted (each at all its
word-bounded occurrences), not "exactly one, the first by position" — the
claimed output would keep `Ethernet4` intact. -/
theorem C3_counterexample_fallback_two_names :
    processLine [(s2l "Ethernet0", some (s2l "etp1")), (s2l "Ethernet4", some (s2l "etp2"))] 4
      (s2l "foo") (s2l "Ethernet0 Ethernet4\n") = .ok [s2l "etp1 etp2"] ∧
    (s2l "etp1 etp2" : List Char) ≠ s2l "etp1 Ethernet4" := by decide

/-- C3 amended: under a token-index rule, when the (colon-stripped) token at
the rule's token index is a known canonical name with a nonempty alias whose
first occurrence in the line is the token itself, exactly that occurrence is
substituted (by the padded alias) — in particular a different known
canonical name occurring EARLIER in the line is left in place, so the
substituted name is the one at the rule's index, not the first by position;
the fallback rule instead substitutes every known name (see the
counterexample). -/
theorem C3_token_index_single_substitution (pd : PortDict) (maxLen index : Nat)
    (line pre t post a w p2 : List Char) (oa2 : Option (List Char))
    (h1 : (s2l "---").isPrefixOf line = false)
    (h2 : (pySplit line).get? index = some w)
    (h3 : w.filter (fun c => !(c == ':')) = t)
    (h4 : portAlias pd t = some (some a))
    (h5 : a ≠ [])
    (h8 : t ≠ [])
    (h6 : line = pre ++ (t ++ post))
    (h7 : ∀ i, i < pre.length → t.isPrefixOf (List.drop i (pre ++ (t ++ post))) = false)
    (_hp2mem : (p2, oa2) ∈ pd)
    (hp2 : containsSub p2 pre = true) :
    print_output_in_alias_mode pd maxLen line index
      = .ok (rstripNL (pre ++ (padAlias maxLen a ++ post)))
    ∧ containsSub p2 (pre ++ (padAlias maxLen a ++ post)) = true :=
  ⟨print_output_subst pd maxLen index line pre t post a w h1 h2 h3 h4 h5 h8 h6 h7,
   containsSub_append_left p2 pre (padAlias maxLen a ++ post) hp2⟩

/-- Witness for C3 amended: the `nbrshow` rule (token index 2) on the line
"Ethernet0 x Ethernet4" substitutes `Ethernet4` (the indexed token), leaving
the earlier-by-position known name `Ethernet0` untouched. -/
theorem C3_token_index_single_substitution_witness :
    print_output_in_alias_mode
        [(s2l "Ethernet0", some (s2l "etp1")), (s2l "Ethernet4", some (s2l "etp2"))] 4
        (s2l "Ethernet0 x Ethernet4") 2 = .ok (s2l "Ethernet0 x etp2") ∧
    containsSub (s2l "Ethernet0") (s2l "Ethernet0 x etp2") = true := by
  have h := C3_token_index_single_substitution
    [(s2l "Ethernet0", some (s2l "etp1")), (s2l "Ethernet4", some (s2l "etp2"))] 4 2
    (s2l "Ethernet0 x Ethernet4") (s2l "Ethernet0 x ") (s2l "Ethernet4") []
    (s2l "etp2") (s2l "Ethernet4") (s2l "Ethernet0") (some (s2l "etp1"))
    (by decide) (by decide) (by decide) (by decide) (by decide) (by decide)
    (by decide) (by decide) (by decide) (by decide)
  exact ⟨h.1.trans (by decide), by decide⟩

/-- C5: whenever the token-index path substitutes an alias for the canonical
name at the rule's token index, the substituted token is `padAlias` of the
alias, whose length is exactly `max (alias length) maxAliasWidth`; the
padding is a block of spaces prepended to the intact alias — right-justified
when shorter than the registry width, unmodified (never truncated)
otherwise. -/
theorem C5_padding_bound (pd : PortDict) (maxLen index : Nat)
    (line pre t post a w : List Char)
    (h1 : (s2l "---").isPrefixOf line = false)
    (h2 : (pySplit line).get? index = some w)
    (h3 : w.filter (fun c => !(c == ':')) = t)
    (h4 : portAlias pd t = some (some a))
    (h5 : a ≠ [])
    (h8 : t ≠ [])
    (h6 : line = pre ++ (t ++ post))
    (h7 : ∀ i, i < pre.length → t.isPrefixOf (List.drop i (pre ++ (t ++ post))) = false) :
    print_output_in_alias_mode pd maxLen line index
      = .ok (rstripNL (pre ++ (padAlias maxLen a ++ post)))
    ∧ (padAlias maxLen a).length = max a.length maxLen
    ∧ ∃ q, (∀ c ∈ q, c = ' ') ∧ padAlias maxLen a = q ++ a :=
  ⟨print_output_subst pd maxLen index line pre t post a w h1 h2 h3 h4 h5 h8 h6 h7,
   padAlias_length maxLen a, padAlias_pad_only maxLen a⟩

/-- Witness for C5: alias "et" (length 2) under registry width 4 is
substituted as "  et" — length `max 2 4 = 4`, alias kept intact. -/
theorem C5_padding_bound_witness :
    print_output_in_alias_mode [(s2l "Ethernet0", some (s2l "et"))] 4
        (s2l "Ethernet0 up") 0 = .ok (s2l "  et up") ∧
    (padAlias 4 (s2l "et")).length = max (s2l "et").length 4 ∧
    padAlias 4 (s2l "et") = s2l "  " ++ s2l "et" := by
  have h := C5_padding_bound [(s2l "Ethernet0", some (s2l "et"))] 4 0
    (s2l "Ethernet0 up") [] (s2l "Ethernet0") (s2l " up") (s2l "et") (s2l "Ethernet0")
    (by decide) (by decide) (by decide) (by decide) (by decide) (by decide)
    (by decide) (by decide)
  exact ⟨h.1.trans (by decide), h.2.1, by decide⟩

/-- C6 counterexample: on the claim's own example — registry
{"Ethernet0": "etp1"}, width 4, token index 0, divider input
"----------  ------  ------" — the code emits the line UNCHANGED, because
`rjust(4, '-')` never truncates a 10-dash run; the claim's promised output
(first dash run replaced by a 4-character dash string) differs. -/
theorem C6_counterexample_divider_not_truncated :
    processLine [(s2l "Ethernet0", some (s2l "etp1"))] 4 (s2l "portstat")
      (s2l "----------  ------  ------\n") = .ok [s2l "----------  ------  ------"] ∧
    (s2l "----------  ------  ------" : List Char) ≠ s2l "----  ------  ------" := by decide

/-- C6 amended: every line beginning with "---" (the code tests a
three-dash PREFIX, not "consists solely of dashes") has the token at the
rule's token index dash-right-justified to the registry width — pad-only:
a token already at least that wide, such as the example's 10-dash run, is
left unchanged — and the tokens re-joined with double-space separators
(provided the re-joined token at the index is not itself a known port
name, which would trigger the ordinary substitution afterwards). -/
theorem C6_dash_line_padding (pd : PortDict) (maxLen index : Nat) (line w w2 : List Char)
    (hd : (s2l "---").isPrefixOf line = true)
    (hw : (pySplit line).get? index = some w)
    (h2 : (pySplit (List.intercalate (s2l "  ")
        ((pySplit line).set index (rjust '-' maxLen w)))).get? index = some w2)
    (hno : portAlias pd (w2.filter (fun c => !(c == ':'))) = none) :
    print_output_in_alias_mode pd maxLen line index
      = .ok (rstripNL (List.intercalate (s2l "  ")
          ((pySplit line).set index (rjust '-' maxLen w))))
    ∧ (maxLen ≤ w.length → rjust '-' maxLen w = w) := by
  constructor
  · have hword := isEmpty_false_of_get _ _ _ h2
    simp only [print_output_in_alias_mode, hd, if_true, hw, hword, h2,
      Bool.false_eq_true, if_false, hno]
  · intro h
    rw [rjust, if_neg (Nat.not_lt.mpr h)]

/-- Witness for C6 amended at the claim's concrete example: the divider line
is emitted unchanged, and the 10-dash run survives `rjust '-' 4` intact. -/
theorem C6_dash_line_padding_witness :
    print_output_in_alias_mode [(s2l "Ethernet0", some (s2l "etp1"))] 4
        (s2l "----------  ------  ------") 0 = .ok (s2l "----------  ------  ------") ∧
    rjust '-' 4 (s2l "----------") = s2l "----------" := by
  have h := C6_dash_line_padding [(s2l "Ethernet0", some (s2l "etp1"))] 4 0
    (s2l "----------  ------  ------") (s2l "----------") (s2l "----------")
    (by decide) (by decide) (by decide) (by decide)
  exact ⟨h.1.trans (by decide), h.2 (by decide)⟩
